import Mathlib

/-!
Verification of the obfuscation-benchmark orchestration engine

Shallow embedding of `src/benchmark.py` (class `ObfuscationBenchmark`), and
proofs of the behavioural claims about it.

Modelling conventions:
* Python float samples are modelled as exact rationals (`ℚ`); the standard
  deviation, which involves a square root, lives in `ℝ`.
* The process file system is an association list from path strings to file
  contents (`FileSys`).  A later insertion shadows earlier ones, which models
  overwriting.
* External effects that the code treats as opaque (subprocess execution, the
  lexical `re.findall` import scan over file text, the pure regex repair
  rewrites, injected I/O faults) are parameters of the embedded functions, so
  every theorem quantifies over all of their behaviours.
* Python exceptions are modelled with `Except Unit` / an explicit `raised`
  constructor; a caught exception is reflected exactly where the source's
  `try/except` blocks catch it.
-/

namespace ObfBench

/-! ## Path helpers (`os.path` / `pathlib` operations used by the source)

These are written by structural recursion on the character list of the path so
that concrete instances reduce inside the kernel. -/

/-- Split a character list at every occurrence of the separator `c`
(the semantics of `str.split(c)`). -/
def splitOnChar (c : Char) : List Char → List (List Char)
  | [] => [[]]
  | x :: xs =>
    match splitOnChar c xs with
    | [] => if x = c then [[], []] else [[x]]
    | h :: t => if x = c then [] :: h :: t else (x :: h) :: t

/-- Join character lists with the separator `c` (the semantics of
`c.join(parts)`). -/
def intercalateChar (c : Char) : List (List Char) → List Char
  | [] => []
  | [x] => x
  | x :: xs => x ++ c :: intercalateChar c xs

/-- Python `os.path.basename`: the final `/`-separated component of a path. -/
def baseName (p : String) : String :=
  ⟨(splitOnChar '/' p.data).getLastD []⟩

/-- Python `os.path.dirname`: everything before the final `/`-separated component
(`""` when the path has a single component). -/
def dirName (p : String) : String :=
  ⟨intercalateChar '/' (splitOnChar '/' p.data).dropLast⟩

/-- Python `os.path.join` for the relevant case of joining a directory and a file
name (an empty directory yields the bare name). -/
def joinPath (d f : String) : String :=
  if d = "" then f else d ++ "/" ++ f

/-- Python `pathlib.Path(p).stem`: the final component without its last extension. -/
def pathStem (p : String) : String :=
  let parts := splitOnChar '.' (baseName p).data
  if parts.length ≤ 1 then baseName p else ⟨intercalateChar '.' parts.dropLast⟩

/-- Python `pathlib.Path(p).suffix`: the last extension of the final component,
including the dot (`""` when there is none). -/
def pathSuffix (p : String) : String :=
  let parts := splitOnChar '.' (baseName p).data
  if parts.length ≤ 1 then "" else ⟨'.' :: parts.getLastD []⟩

/-! ## File-system model -/

/-- The process-visible file system: path ↦ file text.  The head-most binding
for a path is the current one. -/
def FileSys := List (String × String)

instance : DecidableEq FileSys := by unfold FileSys; infer_instance

/-- Reading a file (`open(p).read()`): the most recent binding for `p`. -/
def lookupFS (fs : FileSys) (p : String) : Option String :=
  List.lookup p fs

/-- Models `os.path.exists`. -/
def existsFS (fs : FileSys) (p : String) : Bool :=
  (lookupFS fs p).isSome

/-- Writing a file (creating or overwriting). -/
def insertFS (fs : FileSys) (p : String) (content : String) : FileSys :=
  (p, content) :: fs

/-- Removing a path. -/
def eraseFS (fs : FileSys) (p : String) : FileSys :=
  fs.filter (fun e => e.1 ≠ p)

/-- Models `shutil.copy2 src dst` (byte-preserving copy); the caller guards on the
source existing, a missing source raises. -/
def copyFS (fs : FileSys) (src dst : String) : Option FileSys :=
  match lookupFS fs src with
  | none => none
  | some c => some (insertFS fs dst c)

/-- Models `shutil.move src dst`: the guarded variant used at `benchmark.py:583`
(only called when `src` exists). -/
def moveFS (fs : FileSys) (src dst : String) : FileSys :=
  match lookupFS fs src with
  | none => fs
  | some c => insertFS (eraseFS fs src) dst c

/-! ## Dependency resolver (`detect_dependencies`, `benchmark.py:180-221`)

The source extracts candidate module names from the file text with two
`re.findall` patterns (`from X import` / `import X`) and collects them into a
set; that lexical scan is a pure function of the text and is modelled by a
parameter `importsOf : String → List String`.  Each candidate not on the
hard-coded standard/third-party list is resolved against a sibling `.py` file
in the artifact's directory; a hit is appended and recursed into, and the
final list is deduplicated (`list(set(...))`).

The recursion has no visited-set or depth cap, so on cyclic import graphs it
descends until the interpreter's recursion limit raises `RecursionError`;
that error (like any other, e.g. an unreadable file) is caught by the
function's blanket `except`, which returns `[]`.  The embedding makes the
interpreter's depth budget an explicit fuel argument: a call with fuel `0`
raises (`Except.error`), and the caller's handler converts any raise from the
body into the `.ok []` return of `benchmark.py:219-221`. -/

/-- The hard-coded standard/third-party module names excluded at
`benchmark.py:204-207`. -/
def stdlibModules : List String :=
  ["os", "sys", "time", "math", "numpy", "cv2", "dlib",
   "imutils", "scipy", "argparse", "subprocess", "importlib",
   "psutil", "json", "statistics", "matplotlib", "logging",
   "tempfile", "shutil", "platform", "re", "distutils", "shlex"]

/-- The `for module in potential_modules` loop body of
`benchmark.py:203-216`: filter the hard-coded names, resolve the sibling
file, append it and the sub-dependencies found by the recursive call `rec`
(a raise from `rec` propagates out of the loop). -/
def detectLoop (fs : FileSys) (rec : String → Except Unit (List String))
    (dir : String) : List String → Except Unit (List String)
  | [] => .ok []
  | m :: ms =>
    if m ∈ stdlibModules then detectLoop fs rec dir ms
    else
      let module_file := joinPath dir (m ++ ".py")
      if existsFS fs module_file then
        match rec module_file with
        | .error e => .error e
        | .ok sub =>
          match detectLoop fs rec dir ms with
          | .error e => .error e
          | .ok rest => .ok (module_file :: (sub ++ rest))
      else detectLoop fs rec dir ms

/-- Models `ObfuscationBenchmark.detect_dependencies`.  `importsOf` is the
lexical import scan, `fs` the file system, the fuel is the remaining interpreter
recursion depth.  `.error` models an uncaught `RecursionError` raised on call
entry; the `match` on the loop's outcome is the blanket `except` of
`benchmark.py:219-221`, and `.ok deps.dedup` is the `list(set(...))` return
of line 218. -/
def detect_dependencies (importsOf : String → List String) (fs : FileSys) :
    Nat → String → Except Unit (List String)
  | 0, _ => .error ()
  | n + 1, test_file =>
    match lookupFS fs test_file with
    | none => .ok []
    | some content =>
      match detectLoop fs (detect_dependencies importsOf fs n)
          (dirName test_file) (importsOf content) with
      | .error _ => .ok []
      | .ok deps => .ok deps.dedup

/-! ## Statistics aggregator (`measure_performance`, `benchmark.py:807-821`)

The source computes, for each metric's collected sample list, either the
dictionary `{mean, median, min, max, stdev}` (non-empty list) or the all-zero
dictionary (empty list).  `statistics.stdev` is only invoked when at least two
samples exist; it is the square root of the `n-1`-denominator sample
variance. -/

/-- Models `statistics.mean`. -/
def pyMean (xs : List ℚ) : ℚ :=
  xs.sum / xs.length

/-- Models `statistics.median`: sort, then take the middle element (odd length) or
the average of the two middle elements (even length). -/
def pyMedian (xs : List ℚ) : ℚ :=
  let s := xs.insertionSort (· ≤ ·)
  let n := xs.length
  if n % 2 = 1 then s.getD (n / 2) 0
  else (s.getD (n / 2 - 1) 0 + s.getD (n / 2) 0) / 2

/-- Python `min` over a non-empty list. -/
def pyMin : List ℚ → ℚ
  | [] => 0
  | x :: xs => xs.foldl min x

/-- Python `max` over a non-empty list. -/
def pyMax : List ℚ → ℚ
  | [] => 0
  | x :: xs => xs.foldl max x

/-- The `n-1`-denominator sample variance underlying `statistics.stdev`. -/
def sampleVariance (xs : List ℚ) : ℚ :=
  (xs.map (fun x => (x - pyMean xs) ^ 2)).sum / (xs.length - 1 : ℚ)

/-- Models `statistics.stdev` (square root of the sample variance). -/
noncomputable def pyStdev (xs : List ℚ) : ℝ :=
  Real.sqrt (sampleVariance xs)

/-- The per-metric summary dictionary built at `benchmark.py:811-819`. -/
structure MetricSummary where
  mean : ℚ
  median : ℚ
  min : ℚ
  max : ℚ
  stdev : ℝ

/-- The branch of `benchmark.py:810-819` for one metric: non-empty sample
list ↦ the five summary statistics (with `stdev = 0` below two samples),
empty list ↦ the all-zero summary. -/
noncomputable def pySummary (xs : List ℚ) : MetricSummary :=
  if xs.isEmpty then ⟨0, 0, 0, 0, 0⟩
  else ⟨pyMean xs, pyMedian xs, pyMin xs, pyMax xs,
        if 1 < xs.length then pyStdev xs else 0⟩

/-! ## Tool registry entries (`TOOLS`, `benchmark.py:36-93`)

A tool entry as read by the driver: the `enabled` flag, the optional command
template and output-path template, and the behavioural flags.  A `str.format`
template is modelled as the substitution function it induces; the command
template receives the six placeholders `input_file`, `output_file`,
`output_temp`, `input_name`, `input_dir`, `output_dir`, the output template
the three placeholders `output_dir`, `input_name`, `input_dir`. -/

structure ToolInfo where
  enabled : Bool
  command : Option (String → String → String → String → String → String → String)
  output : Option (String → String → String → String)
  post_process : Bool
  custom_handler : Bool
  needs_execution : Bool

/-- A Python call result: either a normally returned value or an uncaught
exception propagating to the caller. -/
inductive PyResult (α : Type) where
  | raised : PyResult α
  | ret : α → PyResult α
deriving DecidableEq

/-! ## Output repair pass (`_fix_pyobfuscate_output`, `benchmark.py:430-500`)

The body applies a fixed sequence of pure regex rewrites to the file text;
no claim depends on the rewritten text, so the pipeline of lines 439-492 is
abstracted as a parameter `repair : String → String`.  Real failure modes are
a missing file (lines 432-434) and I/O errors from `open`/`read`/`write`,
modelled by the fault oracle `readFails`; any exception is caught by the
function's own handler, which returns `False` and leaves the file in its last
successfully written state (lines 498-500). -/

def fix_pyobfuscate_output (repair : String → String) (readFails : String → Bool)
    (fs : FileSys) (output_file : String) : Bool × FileSys :=
  match lookupFS fs output_file with
  | none => (false, fs)
  | some content =>
    if readFails output_file then (false, fs)
    else (true, insertFS fs output_file (repair content))

/-! ## Obfuscation driver (`apply_obfuscation`, `benchmark.py:503-637`)

External behaviours are parameters:
* `importsOf` — the lexical import scan (as for the resolver);
* `runCmd` — `_execute_command` (`benchmark.py:350-376`): the subprocess may
  rewrite the file system and reports success or failure (a failing command
  is caught there and reported as `False`, never raised);
* `repair`/`readFails` — the repair pass parameters above;
* `cython` — the `_apply_cython` custom pipeline (`benchmark.py:640-716`),
  abstracted as its effect on the file system plus an optional wrapper path,
  since no claim depends on it.

The fuel is the interpreter recursion-depth budget passed to the dependency
resolver. -/

structure DriverEnv where
  importsOf : String → List String
  runCmd : FileSys → String → Bool × FileSys
  repair : String → String
  readFails : String → Bool
  cython : FileSys → String → FileSys × Option String

/-- The dependency-propagation loop of `benchmark.py:593-628`: re-instantiate
the templates for one dependency, execute, ignore failure, and apply the
post-processing move-and-repair. -/
def applyDepStep (env : DriverEnv) (tool_name : String) (ti : ToolInfo)
    (cmdT : String → String → String → String → String → String → String)
    (outT : String → String → String → String)
    (input_dir output_dir : String) (fs : FileSys) (dep : String) : FileSys :=
  let dep_name := pathStem dep
  let dep_output_file := outT output_dir dep_name input_dir
  let dep_output_temp :=
    if tool_name = "pyobfuscate" then dep_output_file ++ ".temp" else dep_output_file
  let dep_command := cmdT dep dep_output_file dep_output_temp dep_name input_dir output_dir
  let (_, fs1) := env.runCmd fs dep_command
  if tool_name = "pyobfuscate" && ti.post_process && existsFS fs1 dep_output_temp then
    let fs2 := if dep_output_temp ≠ dep_output_file
      then moveFS fs1 dep_output_temp dep_output_file else fs1
    (fix_pyobfuscate_output env.repair env.readFails fs2 dep_output_file).2
  else fs1

/-- The output path produced for the identity tool at `benchmark.py:512`. -/
def originalOutputPath (temp_dir input_file : String) : String :=
  joinPath temp_dir (pathStem input_file ++ "_original" ++ pathSuffix input_file)

/-- One step of the dependency-copy loop of the identity branch
(`benchmark.py:516-519`): copy the dependency into the workspace under its
basename; a failed copy raises, aborting the remaining copies (the raised
flag is sticky). -/
def origDepStep (temp_dir : String) (acc : FileSys × Bool) (dep : String) :
    FileSys × Bool :=
  if acc.2 then acc
  else match copyFS acc.1 dep (joinPath temp_dir (baseName dep)) with
    | none => (acc.1, true)
    | some fs' => (fs', false)

/-- Models `ObfuscationBenchmark.apply_obfuscation`.  Returns the (possibly
modified) file system together with `ret none` for a failed trial (`return
None`), `ret (some p)` for a produced artifact path, or `raised` for an
exception escaping the function (caught later by `run_benchmark`). -/
def apply_obfuscation (env : DriverEnv) (tools : List (String × ToolInfo))
    (temp_dir : String) (fuel : Nat) (tool_name input_file : String)
    (fs : FileSys) : FileSys × PyResult (Option String) :=
  -- benchmark.py:506: dependencies = self.detect_dependencies(input_file)
  match detect_dependencies env.importsOf fs fuel input_file with
  | .error _ => (fs, .raised)
  | .ok dependencies =>
    if tool_name = "original" then
      -- benchmark.py:509-521: copy the artifact and its dependencies.
      let output_path := originalOutputPath temp_dir input_file
      match copyFS fs input_file output_path with
      | none => (fs, .raised)
      | some fs1 =>
        let (fs2, depRaised) := dependencies.foldl (origDepStep temp_dir) (fs1, false)
        if depRaised then (fs2, .raised) else (fs2, .ret (some output_path))
    else
      match List.lookup tool_name tools with
      | none => (fs, .raised)  -- TOOLS[tool_name] raises KeyError
      | some ti =>
        if !ti.enabled then (fs, .ret none)
        else
          let input_dir := dirName input_file
          let input_name := pathStem input_file
          let output_dir := temp_dir
          if tool_name = "cython" then
            -- benchmark.py:535-543: custom pipeline on the main file, then
            -- on each dependency, returning the main wrapper.
            let (fs1, main_output) := env.cython fs input_file
            let fs2 := dependencies.foldl (fun f dep => (env.cython f dep).1) fs1
            (fs2, .ret main_output)
          else
            match ti.command with
            | none => (fs, .ret none)  -- benchmark.py:636-637
            | some cmdT =>
              match ti.output with
              | none => (fs, .raised)  -- tool_info['output'] raises KeyError
              | some outT =>
                let output_file := outT output_dir input_name input_dir
                let output_temp :=
                  if tool_name = "pyobfuscate" then output_file ++ ".temp" else output_file
                let command :=
                  cmdT input_file output_file output_temp input_name input_dir output_dir
                let (success, fs1) := env.runCmd fs command
                if !success then (fs1, .ret none)
                else
                  let fs2 :=
                    if tool_name = "pyobfuscate" && ti.post_process &&
                        existsFS fs1 output_temp then
                      let fsm := if output_temp ≠ output_file
                        then moveFS fs1 output_temp output_file else fs1
                      -- benchmark.py:585: the repair pass's result is discarded.
                      (fix_pyobfuscate_output env.repair env.readFails fsm output_file).2
                    else fs1
                  if !existsFS fs2 output_file then (fs2, .ret none)
                  else
                    let fs3 := dependencies.foldl
                      (applyDepStep env tool_name ti cmdT outT input_dir output_dir) fs2
                    (fs3, .ret (some output_file))

/-! ## Performance sampler (`measure_performance`, `benchmark.py:718-821`)

One iteration of the sampling loop (lines 749-805) interacts with the
environment at fixed points; the oracle `IterEvent` fixes, per iteration, the
measured values and which step (if any) raises:
* `spawnFails` — `subprocess.Popen` raises (line 760/762);
* `startup` — the recorded startup latency (line 764);
* `memOk`/`memVal` — whether the `psutil` monitor ran without a
  `NoSuchProcess`/`AccessDenied` error (those are caught at line 782 and
  merely skip the sample) and the retained maximum (line 781);
* `commFails` — `process.communicate()` raises (line 786);
* `execVal` — the recorded execution time (line 787);
* `sizeFails` — `os.path.getsize` raises (line 800);
* `sizeVal` — the recorded size sample (line 800).
Any raise is caught by the per-iteration handler at line 804 and the loop
moves on.  The working directory is process state: it is switched to the
temporary workspace at line 757 and switched back at line 791 — inside the
`try`, with no `finally`. -/

structure IterEvent where
  spawnFails : Bool
  startup : ℚ
  memOk : Bool
  memVal : ℚ
  commFails : Bool
  execVal : ℚ
  sizeFails : Bool
  sizeVal : ℚ
deriving DecidableEq

/-- The four per-metric sample lists (`metrics`, `benchmark.py:725`). -/
structure SampleSets where
  execution_time : List ℚ
  memory_usage : List ℚ
  code_size : List ℚ
  startup_time : List ℚ
deriving DecidableEq

/-- Orchestrator state threaded through the sampling loop: the process
working directory and the collected samples. -/
structure MeasureState where
  cwd : String
  samples : SampleSets
deriving DecidableEq

/-- One iteration of the loop at `benchmark.py:749-805`. -/
def runIteration (temp_dir : String) (ev : IterEvent) (st : MeasureState) :
    MeasureState :=
  let current_dir := st.cwd                        -- line 756
  let st := { st with cwd := temp_dir }            -- line 757
  if ev.spawnFails then st                         -- Popen raised: caught at 804
  else
    let st := { st with samples :=                 -- line 765
      { st.samples with startup_time := st.samples.startup_time ++ [ev.startup] } }
    let st :=
      if ev.memOk then                             -- line 781
        { st with samples :=
          { st.samples with memory_usage := st.samples.memory_usage ++ [ev.memVal] } }
      else st                                      -- psutil error: caught at 782
    if ev.commFails then st                        -- communicate raised: caught at 804
    else
      let st := { st with samples :=               -- line 788
        { st.samples with execution_time := st.samples.execution_time ++ [ev.execVal] } }
      let st := { st with cwd := current_dir }     -- line 791
      if ev.sizeFails then st                      -- getsize raised: caught at 804
      else
        { st with samples :=                       -- line 801
          { st.samples with code_size := st.samples.code_size ++ [ev.sizeVal] } }

/-- The summaries computed per metric at `benchmark.py:807-821`. -/
structure PerfSummary where
  execution_time : MetricSummary
  memory_usage : MetricSummary
  code_size : MetricSummary
  startup_time : MetricSummary

/-- Models `ObfuscationBenchmark.measure_performance`: `none` when the artifact path
is null or absent (lines 720-722); otherwise run the iterations (the event
list has one entry per configured iteration) from the orchestrator's current
working directory and summarize.  Returns the final working directory and the
summaries.  Resource staging (lines 731-746) only copies corpus files into
the workspace and affects neither the samples nor the working directory, so
it is omitted. -/
noncomputable def measure_performance (fs : FileSys) (obfuscated_file : Option String)
    (temp_dir : String) (events : List IterEvent) (cwd : String) :
    Option (MeasureState × PerfSummary) :=
  match obfuscated_file with
  | none => none
  | some p =>
    if !existsFS fs p then none
    else
      let st := events.foldl (fun s e => runIteration temp_dir e s) ⟨cwd, ⟨[], [], [], []⟩⟩
      some (st, ⟨pySummary st.samples.execution_time, pySummary st.samples.memory_usage,
                 pySummary st.samples.code_size, pySummary st.samples.startup_time⟩)

/-! ## Orchestration loop and persistence
(`run_benchmark` / `save_results`, `benchmark.py:823-868`) -/

/-- The nested results mapping `test file ↦ tool ↦ per-metric summaries`. -/
def Results := List (String × List (String × PerfSummary))

/-- Assignment `d[k] = v` on an association list (newest binding first). -/
def assocSet {α : Type} (m : List (String × α)) (k : String) (v : α) :
    List (String × α) :=
  (k, v) :: m.filter (fun e => e.1 ≠ k)

/-- One `(test file, tool)` trial of `benchmark.py:831-849`: skip disabled
tools, apply the obfuscation, measure, and record the summaries when both
steps produced something; any exception is caught at line 848 and the loop
continues.  `measEvents` supplies the sampling-iteration oracle for the
trial.  The state threaded through is `(results, fs, cwd)`. -/
noncomputable def runTrial (env : DriverEnv) (tools : List (String × ToolInfo))
    (temp_dir : String) (fuel : Nat) (measEvents : String → String → List IterEvent)
    (test_file : String) (acc : Results × FileSys × String)
    (tool : String × ToolInfo) : Results × FileSys × String :=
  let (results, fs, cwd) := acc
  if !tool.2.enabled then acc
  else
    match apply_obfuscation env tools temp_dir fuel tool.1 test_file fs with
    | (fs1, .raised) => (results, fs1, cwd)
    | (fs1, .ret obfuscated_file) =>
      match measure_performance fs1 obfuscated_file temp_dir
          (measEvents test_file tool.1) cwd with
      | none => (results, fs1, cwd)
      | some (st, metrics) =>
        let inner := ((results.lookup test_file).getD [])
        (assocSet results test_file (assocSet inner tool.1 metrics), fs1, st.cwd)

/-- Models `ObfuscationBenchmark.run_benchmark` (without the final `save_results`
call, modelled separately): for each test file, create its (initially empty)
results entry (line 829), then run every tool.  Capability probing and tool
installation (`check_environment` / `install_tools`) only rewrite the tool
registry before this loop; the `tools` argument is the registry as probed. -/
noncomputable def run_benchmark (env : DriverEnv) (tools : List (String × ToolInfo))
    (temp_dir : String) (fuel : Nat) (measEvents : String → String → List IterEvent)
    (test_files : List String) (fs : FileSys) (cwd : String) :
    Results × FileSys × String :=
  test_files.foldl
    (fun acc test_file =>
      let acc := (assocSet acc.1 test_file [], acc.2.1, acc.2.2)
      tools.foldl (runTrial env tools temp_dir fuel measEvents test_file) acc)
    ([], fs, cwd)

/-- Models `ObfuscationBenchmark.save_results` (`benchmark.py:854-868`): with an
empty results mapping, log an error and return without touching the disk;
otherwise write the serialized document to
`output_dir/benchmark_results.json`.  `serialize` abstracts `json.dump`. -/
def save_results (serialize : Results → String) (results : Results)
    (output_dir : String) (disk : FileSys) : FileSys :=
  if results.isEmpty then disk
  else insertFS disk (joinPath output_dir "benchmark_results.json") (serialize results)

/-! ## Concrete scenarios used by witnesses and counterexamples -/

/-- Import scan behaviour for two sibling files that import each other. -/
def cycImportsOf : String → List String :=
  fun c => if c = "import b" then ["b"] else if c = "import a" then ["a"] else []

/-- Two sibling files with a cyclic import graph. -/
def cycFS : FileSys := [("d/a.py", "import b"), ("d/b.py", "import a")]

/-- Import scan behaviour for a file whose text mentions its own module. -/
def selfImportsOf : String → List String :=
  fun c => if c = "import a" then ["a"] else []

/-- A single artifact whose import scan yields its own module name. -/
def selfFS : FileSys := [("d/a.py", "import a")]

/-- A differently represented file system with the same observable contents
as `selfFS`: the stale duplicate binding is shadowed by the first one. -/
def selfFSDup : FileSys := [("d/a.py", "import a"), ("d/a.py", "stale")]

/-- A sampling iteration in which the subprocess is spawned and the memory
monitor runs, but `process.communicate()` raises. -/
def evCommRaise : IterEvent :=
  { spawnFails := false, startup := 1, memOk := true, memVal := 2,
    commFails := true, execVal := 0, sizeFails := false, sizeVal := 0 }

/-- A sampling iteration in which `subprocess.Popen` itself raises. -/
def evSpawnRaise : IterEvent :=
  { spawnFails := true, startup := 0, memOk := false, memVal := 0,
    commFails := false, execVal := 0, sizeFails := false, sizeVal := 0 }

/-- The sampler state at loop entry: original working directory, no samples. -/
def initMeasure : MeasureState := ⟨"/home/user", ⟨[], [], [], []⟩⟩

/-- A driver environment whose external effects are inert: commands fail
without touching the file system, repairs keep the text, no I/O faults. -/
def inertEnvWith (importsOf : String → List String) : DriverEnv :=
  { importsOf := importsOf
    runCmd := fun fs _ => (false, fs)
    repair := fun c => c
    readFails := fun _ => false
    cython := fun fs _ => (fs, none) }

/-- Import scan for an artifact `foo.py` importing a sibling module named
`foo_original` — whose basename collides with the identity tool's output
file name. -/
def colImportsOf : String → List String :=
  fun c => if c = "import foo_original" then ["foo_original"] else []

/-- The colliding pair of sibling files. -/
def colFS : FileSys :=
  [("d/foo.py", "import foo_original"), ("d/foo_original.py", "YYY")]

/-- A single dependency-free artifact. -/
def soloFS : FileSys := [("d/foo.py", "SRC")]

/-- A registry in which every tool — including `original` — is disabled. -/
def disabledTools : List (String × ToolInfo) :=
  [("original",
    { enabled := false, command := none, output := none,
      post_process := false, custom_handler := false, needs_execution := false })]

/-- A dependency-free artifact for the post-processing scenario. -/
def cex8FS : FileSys := [("d/a.py", "SRC")]

/-- Environment for the post-processing-failure scenario: the subprocess
succeeds and deposits the raw obfuscated text at the temporary output path,
and reading the final output file back for the repair pass fails. -/
def cex8Env : DriverEnv :=
  { importsOf := fun _ => []
    runCmd := fun fs _ => (true, insertFS fs "/t/a.obf.py.temp" "RAW")
    repair := fun c => c
    readFails := fun p => p == "/t/a.obf.py"
    cython := fun fs _ => (fs, none) }

/-- A registry holding the `pyobfuscate` entry with its templates and
`post_process` flag. -/
def cex8Tools : List (String × ToolInfo) :=
  [("pyobfuscate",
    { enabled := true
      command := some (fun i _ t _ _ _ => "pyobfuscate -i " ++ i ++ " > " ++ t)
      output := some (fun od n _ => od ++ "/" ++ n ++ ".obf.py")
      post_process := true, custom_handler := false, needs_execution := false })]

/-! ## Helper lemmas: order bounds of the aggregator -/

theorem foldl_min_le_init (l : List ℚ) (a : ℚ) : l.foldl min a ≤ a := by
  induction l generalizing a with
  | nil => exact le_refl a
  | cons x xs ih => exact le_trans (ih (min a x)) (min_le_left a x)

theorem foldl_min_le_mem : ∀ (l : List ℚ) (a y : ℚ), y ∈ l → l.foldl min a ≤ y
  | [], _, _, hy => by cases hy
  | x :: xs, a, y, hy => by
    rcases List.mem_cons.mp hy with h | h
    · subst h
      exact le_trans (foldl_min_le_init xs (min a y)) (min_le_right a y)
    · exact foldl_min_le_mem xs (min a x) y h

theorem foldl_min_eq_or_mem (l : List ℚ) (a : ℚ) :
    l.foldl min a = a ∨ l.foldl min a ∈ l := by
  induction l generalizing a with
  | nil => exact Or.inl rfl
  | cons x xs ih =>
    rcases ih (min a x) with h | h
    · rcases min_choice a x with hm | hm
      · exact Or.inl (by rw [List.foldl_cons, h, hm])
      · exact Or.inr (List.mem_cons.mpr (Or.inl (by rw [List.foldl_cons, h, hm])))
    · exact Or.inr (List.mem_cons_of_mem x h)

theorem init_le_foldl_max (l : List ℚ) (a : ℚ) : a ≤ l.foldl max a := by
  induction l generalizing a with
  | nil => exact le_refl a
  | cons x xs ih => exact le_trans (le_max_left a x) (ih (max a x))

theorem mem_le_foldl_max : ∀ (l : List ℚ) (a y : ℚ), y ∈ l → y ≤ l.foldl max a
  | [], _, _, hy => by cases hy
  | x :: xs, a, y, hy => by
    rcases List.mem_cons.mp hy with h | h
    · subst h
      exact le_trans (le_max_right a y) (init_le_foldl_max xs (max a y))
    · exact mem_le_foldl_max xs (max a x) y h

theorem pyMin_le_of_mem {l : List ℚ} {y : ℚ} (hy : y ∈ l) : pyMin l ≤ y := by
  cases l with
  | nil => cases hy
  | cons x xs =>
    rcases List.mem_cons.mp hy with h | h
    · subst h; exact foldl_min_le_init xs y
    · exact foldl_min_le_mem xs x _ h

theorem le_pyMax_of_mem {l : List ℚ} {y : ℚ} (hy : y ∈ l) : y ≤ pyMax l := by
  cases l with
  | nil => cases hy
  | cons x xs =>
    rcases List.mem_cons.mp hy with h | h
    · subst h; exact init_le_foldl_max xs y
    · exact mem_le_foldl_max xs x _ h

theorem sum_le_length_mul (l : List ℚ) (B : ℚ) (h : ∀ x ∈ l, x ≤ B) :
    l.sum ≤ (l.length : ℚ) * B := by
  induction l with
  | nil => simp
  | cons x xs ih =>
    have hx : x ≤ B := h x (List.mem_cons_self x xs)
    have hxs : xs.sum ≤ (xs.length : ℚ) * B :=
      ih (fun y hy => h y (List.mem_cons_of_mem x hy))
    have : ((x :: xs).length : ℚ) * B = (xs.length : ℚ) * B + B := by
      push_cast [List.length_cons]; ring
    rw [List.sum_cons, this]
    linarith

theorem length_mul_le_sum (l : List ℚ) (B : ℚ) (h : ∀ x ∈ l, B ≤ x) :
    (l.length : ℚ) * B ≤ l.sum := by
  induction l with
  | nil => simp
  | cons x xs ih =>
    have hx : B ≤ x := h x (List.mem_cons_self x xs)
    have hxs : (xs.length : ℚ) * B ≤ xs.sum :=
      ih (fun y hy => h y (List.mem_cons_of_mem x hy))
    have : ((x :: xs).length : ℚ) * B = (xs.length : ℚ) * B + B := by
      push_cast [List.length_cons]; ring
    rw [List.sum_cons, this]
    linarith

theorem pyMin_le_pyMean {l : List ℚ} (h : l ≠ []) : pyMin l ≤ pyMean l := by
  have hlen : 0 < (l.length : ℚ) := by
    have := List.length_pos.mpr h
    exact_mod_cast this
  rw [pyMean, le_div_iff₀ hlen]
  have := length_mul_le_sum l (pyMin l) (fun x hx => pyMin_le_of_mem hx)
  linarith [this]

theorem pyMean_le_pyMax {l : List ℚ} (h : l ≠ []) : pyMean l ≤ pyMax l := by
  have hlen : 0 < (l.length : ℚ) := by
    have := List.length_pos.mpr h
    exact_mod_cast this
  rw [pyMean, div_le_iff₀ hlen]
  have := sum_le_length_mul l (pyMax l) (fun x hx => le_pyMax_of_mem hx)
  linarith [this]

theorem getD_mem_of_lt : ∀ (l : List ℚ) (i : ℕ), i < l.length → l.getD i 0 ∈ l
  | [], i, h => by cases h
  | x :: xs, 0, _ => by simp [List.getD]
  | x :: xs, i + 1, h => by
    have : i < xs.length := by simpa using Nat.lt_of_succ_lt_succ h
    simpa [List.getD] using List.mem_cons_of_mem x (getD_mem_of_lt xs i this)

theorem sorted_getD_mem {l : List ℚ} {i : ℕ} (h : i < l.length) :
    (l.insertionSort (· ≤ ·)).getD i 0 ∈ l := by
  have hperm := List.perm_insertionSort (· ≤ ·) l
  have hlen : i < (l.insertionSort (· ≤ ·)).length := by
    rwa [hperm.length_eq]
  exact hperm.mem_iff.mp (getD_mem_of_lt _ i hlen)

theorem pyMedian_bounds {l : List ℚ} (h : l ≠ []) :
    pyMin l ≤ pyMedian l ∧ pyMedian l ≤ pyMax l := by
  have hn : 0 < l.length := List.length_pos.mpr h
  rw [pyMedian]
  by_cases hodd : l.length % 2 = 1
  · have hi : l.length / 2 < l.length := Nat.div_lt_self hn one_lt_two
    have hmem := sorted_getD_mem (l := l) hi
    rw [if_pos hodd]
    exact ⟨pyMin_le_of_mem hmem, le_pyMax_of_mem hmem⟩
  · have hi : l.length / 2 < l.length := Nat.div_lt_self hn one_lt_two
    have hi' : l.length / 2 - 1 < l.length := lt_of_le_of_lt (Nat.sub_le _ _) hi
    have hmem := sorted_getD_mem (l := l) hi
    have hmem' := sorted_getD_mem (l := l) hi'
    rw [if_neg hodd]
    constructor
    · have h1 := pyMin_le_of_mem hmem'
      have h2 := pyMin_le_of_mem hmem
      linarith
    · have h1 := le_pyMax_of_mem hmem'
      have h2 := le_pyMax_of_mem hmem
      linarith

/-! ## Helper lemmas: dependency resolver -/

theorem detect_dependencies_total (importsOf : String → List String) (fs : FileSys)
    (fuel : Nat) (file : String) (h : 0 < fuel) :
    ∃ l, detect_dependencies importsOf fs fuel file = .ok l ∧ l.Nodup := by
  obtain ⟨n, rfl⟩ := Nat.exists_eq_succ_of_ne_zero (Nat.pos_iff_ne_zero.mp h)
  cases hfs : lookupFS fs file with
  | none => exact ⟨[], by simp only [detect_dependencies, hfs], List.nodup_nil⟩
  | some content =>
    cases hr : detectLoop fs (detect_dependencies importsOf fs n)
        (dirName file) (importsOf content) with
    | error e =>
      exact ⟨[], by simp only [detect_dependencies, hfs, hr], List.nodup_nil⟩
    | ok deps =>
      exact ⟨deps.dedup, by simp only [detect_dependencies, hfs, hr],
        List.nodup_dedup deps⟩

/-- The invariant satisfied by every element the resolver returns: it is a
sibling path formed from a module name outside the hard-coded filter list,
and the file exists. -/
def depElem (fs : FileSys) (p : String) : Prop :=
  ∃ d m, m ∉ stdlibModules ∧ p = joinPath d (m ++ ".py") ∧ existsFS fs p = true

theorem detectLoop_mem (fs : FileSys) (rec : String → Except Unit (List String))
    (hrec : ∀ f l, rec f = .ok l → ∀ p ∈ l, depElem fs p) (dir : String) :
    ∀ (mods l : List String), detectLoop fs rec dir mods = .ok l →
      ∀ p ∈ l, depElem fs p := by
  intro mods
  induction mods with
  | nil =>
    intro l hl p hp
    simp only [detectLoop] at hl
    injection hl with h
    subst h
    cases hp
  | cons m ms ih =>
    intro l hl p hp
    by_cases hstd : m ∈ stdlibModules
    · simp only [detectLoop, if_pos hstd] at hl
      exact ih l hl p hp
    · by_cases hex : existsFS fs (joinPath dir (m ++ ".py")) = true
      · simp only [detectLoop, if_neg hstd, hex, if_true] at hl
        cases hsub : rec (joinPath dir (m ++ ".py")) with
        | error e => simp only [hsub] at hl; exact Except.noConfusion hl
        | ok sub =>
          simp only [hsub] at hl
          cases hrest : detectLoop fs rec dir ms with
          | error e => simp only [hrest] at hl; exact Except.noConfusion hl
          | ok rest =>
            simp only [hrest, Except.ok.injEq] at hl
            subst hl
            rcases List.mem_cons.mp hp with h | h
            · exact ⟨dir, m, hstd, h, by rw [h]; exact hex⟩
            · rcases List.mem_append.mp h with h | h
              · exact hrec _ sub hsub p h
              · exact ih rest hrest p h
      · rw [Bool.not_eq_true] at hex
        simp only [detectLoop, if_neg hstd, hex, Bool.false_eq_true, if_false] at hl
        exact ih l hl p hp

theorem detect_dependencies_mem (importsOf : String → List String) (fs : FileSys) :
    ∀ (fuel : Nat) (file : String) (l : List String),
      detect_dependencies importsOf fs fuel file = .ok l →
      ∀ p ∈ l, depElem fs p := by
  intro fuel
  induction fuel with
  | zero =>
    intro file l hl
    simp only [detect_dependencies] at hl
    exact Except.noConfusion hl
  | succ n ih =>
    intro file l hl
    cases hfs : lookupFS fs file with
    | none =>
      simp only [detect_dependencies, hfs, Except.ok.injEq] at hl
      subst hl
      intro p hp
      cases hp
    | some content =>
      cases hr : detectLoop fs (detect_dependencies importsOf fs n)
          (dirName file) (importsOf content) with
      | error e =>
        simp only [detect_dependencies, hfs, hr, Except.ok.injEq] at hl
        subst hl
        intro p hp
        cases hp
      | ok deps =>
        simp only [detect_dependencies, hfs, hr, Except.ok.injEq] at hl
        subst hl
        intro p hp
        exact detectLoop_mem fs _ (fun f l hf => ih f l hf) _ _ deps hr p
          (List.mem_dedup.mp hp)

/-- A dependency edge as the source actually creates one
(`benchmark.py:203-212`): `p` is the sibling resolution of a module name `m`
that the lexical scan extracts from the text of the scanned file `f`, where
`m` is outside the hard-coded filter list and the resolved sibling file
exists in `f`'s own directory. -/
def depEdge (importsOf : String → List String) (fs : FileSys) (f p : String) :
    Prop :=
  ∃ content m, lookupFS fs f = some content ∧ m ∈ importsOf content ∧
    m ∉ stdlibModules ∧ p = joinPath (dirName f) (m ++ ".py") ∧
    existsFS fs p = true

theorem detectLoop_ext (fs fs' : FileSys)
    (rec rec' : String → Except Unit (List String))
    (hrec : ∀ f, rec f = rec' f)
    (hagree : ∀ p, lookupFS fs p = lookupFS fs' p) (dir : String) :
    ∀ mods, detectLoop fs rec dir mods = detectLoop fs' rec' dir mods := by
  intro mods
  induction mods with
  | nil => rfl
  | cons m ms ih =>
    by_cases hstd : m ∈ stdlibModules
    · simp only [detectLoop, if_pos hstd, ih]
    · have hex : existsFS fs (joinPath dir (m ++ ".py")) =
          existsFS fs' (joinPath dir (m ++ ".py")) := by
        simp [existsFS, hagree]
      simp only [detectLoop, if_neg hstd]
      by_cases he : existsFS fs (joinPath dir (m ++ ".py")) = true
      · rw [if_pos he, if_pos (hex ▸ he), hrec, ih]
      · rw [Bool.not_eq_true] at he
        rw [if_neg (by rw [he]; simp), if_neg (by rw [← hex, he]; simp), ih]

/-- The resolver is read-only and deterministic: its result depends only on
the observable file contents, so two resolutions over file systems with
identical lookups — in particular two successive calls over the same one —
return identical results. -/
theorem detect_dependencies_ext (importsOf : String → List String)
    (fs fs' : FileSys) (hagree : ∀ p, lookupFS fs p = lookupFS fs' p) :
    ∀ (fuel : Nat) (file : String),
      detect_dependencies importsOf fs fuel file =
        detect_dependencies importsOf fs' fuel file := by
  intro fuel
  induction fuel with
  | zero => intro file; rfl
  | succ n ih =>
    intro file
    have hfs' := (hagree file).symm
    cases hfs : lookupFS fs file with
    | none =>
      rw [hfs] at hfs'
      simp only [detect_dependencies, hfs, hfs']
    | some content =>
      rw [hfs] at hfs'
      simp only [detect_dependencies, hfs, hfs']
      rw [detectLoop_ext fs fs' _ _ (fun f => ih f) hagree (dirName file)
        (importsOf content)]

theorem detectLoop_mem_edge (importsOf : String → List String) (fs : FileSys)
    (rec : String → Except Unit (List String)) (file content : String)
    (hfile : lookupFS fs file = some content)
    (hrec : ∀ f2 l2, rec f2 = .ok l2 → ∀ p ∈ l2,
      ∃ g, (g = f2 ∨ g ∈ l2) ∧ depEdge importsOf fs g p) :
    ∀ (mods l : List String), (∀ m ∈ mods, m ∈ importsOf content) →
      detectLoop fs rec (dirName file) mods = .ok l →
      ∀ p ∈ l, ∃ g, (g = file ∨ g ∈ l) ∧ depEdge importsOf fs g p := by
  intro mods
  induction mods with
  | nil =>
    intro l _ hl p hp
    simp only [detectLoop] at hl
    injection hl with h
    subst h
    cases hp
  | cons m ms ih =>
    intro l hsub hl p hp
    by_cases hstd : m ∈ stdlibModules
    · simp only [detectLoop, if_pos hstd] at hl
      exact ih l (fun x hx => hsub x (List.mem_cons_of_mem m hx)) hl p hp
    · by_cases hex : existsFS fs (joinPath (dirName file) (m ++ ".py")) = true
      · simp only [detectLoop, if_neg hstd, hex, if_true] at hl
        cases hsubr : rec (joinPath (dirName file) (m ++ ".py")) with
        | error e =>
          simp only [hsubr] at hl
          exact Except.noConfusion hl
        | ok sub =>
          simp only [hsubr] at hl
          cases hrest : detectLoop fs rec (dirName file) ms with
          | error e =>
            simp only [hrest] at hl
            exact Except.noConfusion hl
          | ok rest =>
            simp only [hrest, Except.ok.injEq] at hl
            subst hl
            rcases List.mem_cons.mp hp with h | h
            · exact ⟨file, Or.inl rfl, content, m, hfile,
                hsub m (List.mem_cons_self m ms), hstd, h, by rw [h]; exact hex⟩
            · rcases List.mem_append.mp h with h | h
              · obtain ⟨g, hg, hedge⟩ := hrec _ sub hsubr p h
                refine ⟨g, Or.inr ?_, hedge⟩
                rcases hg with hg | hg
                · rw [hg]
                  exact List.mem_cons_self _ _
                · exact List.mem_cons_of_mem _ (List.mem_append.mpr (Or.inl hg))
              · obtain ⟨g, hg, hedge⟩ := ih rest
                  (fun x hx => hsub x (List.mem_cons_of_mem m hx)) hrest p h
                refine ⟨g, ?_, hedge⟩
                rcases hg with hg | hg
                · exact Or.inl hg
                · exact Or.inr
                    (List.mem_cons_of_mem _ (List.mem_append.mpr (Or.inr hg)))
      · rw [Bool.not_eq_true] at hex
        simp only [detectLoop, if_neg hstd, hex, Bool.false_eq_true, if_false] at hl
        exact ih l (fun x hx => hsub x (List.mem_cons_of_mem m hx)) hl p hp

/-- Every path the resolver returns is connected by an actual dependency
edge: it is the sibling resolution of a module name extracted from the text
of a scanned file, and that scanned file is the artifact itself or is itself
in the returned set. -/
theorem detect_dependencies_mem_edge (importsOf : String → List String)
    (fs : FileSys) :
    ∀ (fuel : Nat) (file : String) (l : List String),
      detect_dependencies importsOf fs fuel file = .ok l →
      ∀ p ∈ l, ∃ g, (g = file ∨ g ∈ l) ∧ depEdge importsOf fs g p := by
  intro fuel
  induction fuel with
  | zero =>
    intro file l hl
    simp only [detect_dependencies] at hl
    exact Except.noConfusion hl
  | succ n ih =>
    intro file l hl
    cases hfs : lookupFS fs file with
    | none =>
      simp only [detect_dependencies, hfs, Except.ok.injEq] at hl
      subst hl
      intro p hp
      cases hp
    | some content =>
      cases hr : detectLoop fs (detect_dependencies importsOf fs n)
          (dirName file) (importsOf content) with
      | error e =>
        simp only [detect_dependencies, hfs, hr, Except.ok.injEq] at hl
        subst hl
        intro p hp
        cases hp
      | ok deps =>
        simp only [detect_dependencies, hfs, hr, Except.ok.injEq] at hl
        subst hl
        intro p hp
        obtain ⟨g, hg, hedge⟩ := detectLoop_mem_edge importsOf fs _ file content
          hfs (fun f2 l2 h2 => ih f2 l2 h2) (importsOf content) deps
          (fun m hm => hm) hr p (List.mem_dedup.mp hp)
        refine ⟨g, ?_, hedge⟩
        rcases hg with hg | hg
        · exact Or.inl hg
        · exact Or.inr (List.mem_dedup.mpr hg)

/-! ## Helper lemmas: file system and the identity-tool branch -/

theorem lookupFS_insert_self (fs : FileSys) (p v : String) :
    lookupFS (insertFS fs p v) p = some v := by
  simp [lookupFS, insertFS, List.lookup]

theorem lookupFS_insert_ne (fs : FileSys) (p v q : String) (h : p ≠ q) :
    lookupFS (insertFS fs p v) q = lookupFS fs q := by
  have hb : (q == p) = false := beq_eq_false_iff_ne.mpr (Ne.symm h)
  simp [lookupFS, insertFS, List.lookup, hb]

theorem lookupFS_insert_isSome (fs : FileSys) (p v q : String)
    (h : (lookupFS fs q).isSome = true) :
    (lookupFS (insertFS fs p v) q).isSome = true := by
  by_cases hpq : p = q
  · subst hpq
    rw [lookupFS_insert_self]
    rfl
  · rwa [lookupFS_insert_ne fs p v q hpq]

/-- The dependency-copy loop of the identity branch never raises when every
dependency exists; it only adds files (never removes), and it leaves every
path other than the copy targets untouched. -/
theorem origDeps_fold (temp_dir : String) :
    ∀ (deps : List String) (fs : FileSys),
      (∀ dep ∈ deps, (lookupFS fs dep).isSome = true) →
      ∃ fs', deps.foldl (origDepStep temp_dir) (fs, false) = (fs', false) ∧
        (∀ q, (lookupFS fs q).isSome = true → (lookupFS fs' q).isSome = true) ∧
        (∀ q, (∀ dep ∈ deps, joinPath temp_dir (baseName dep) ≠ q) →
          lookupFS fs' q = lookupFS fs q) := by
  intro deps
  induction deps with
  | nil =>
    intro fs _
    exact ⟨fs, rfl, fun q hq => hq, fun q _ => rfl⟩
  | cons d ds ih =>
    intro fs h
    have hd : (lookupFS fs d).isSome = true := h d (List.mem_cons_self d ds)
    obtain ⟨cd, hcd⟩ := Option.isSome_iff_exists.mp hd
    have hstep : origDepStep temp_dir (fs, false) d =
        (insertFS fs (joinPath temp_dir (baseName d)) cd, false) := by
      simp [origDepStep, copyFS, hcd]
    have hmono : ∀ q, (lookupFS fs q).isSome = true →
        (lookupFS (insertFS fs (joinPath temp_dir (baseName d)) cd) q).isSome = true :=
      fun q hq => lookupFS_insert_isSome fs _ cd q hq
    obtain ⟨fs', hfold, hmono', hpres'⟩ :=
      ih (insertFS fs (joinPath temp_dir (baseName d)) cd)
        (fun dep hdep => hmono dep (h dep (List.mem_cons_of_mem d hdep)))
    refine ⟨fs', ?_, fun q hq => hmono' q (hmono q hq), ?_⟩
    · rw [List.foldl_cons, hstep, hfold]
    · intro q hq
      rw [hpres' q (fun dep hdep => hq dep (List.mem_cons_of_mem d hdep)),
        lookupFS_insert_ne fs _ cd q (hq d (List.mem_cons_self d ds))]

/-- Behaviour of `apply_obfuscation` on the identity tool: whenever the
input artifact exists (and the resolver's depth budget is positive), the
call returns the `*_original*` output path — never `None`, irrespective of
the tool registry — the output path exists afterwards, and its content is
the input's content provided no dependency is copied onto the output path. -/
theorem apply_original_spec (env : DriverEnv) (tools : List (String × ToolInfo))
    (temp_dir : String) (fuel : Nat) (input_file c : String) (fs : FileSys)
    (hfuel : 0 < fuel) (hin : lookupFS fs input_file = some c) :
    ∃ fs', apply_obfuscation env tools temp_dir fuel "original" input_file fs =
        (fs', .ret (some (originalOutputPath temp_dir input_file))) ∧
      existsFS fs' (originalOutputPath temp_dir input_file) = true ∧
      ((∀ l, detect_dependencies env.importsOf fs fuel input_file = .ok l →
          ∀ p ∈ l, joinPath temp_dir (baseName p) ≠
            originalOutputPath temp_dir input_file) →
        lookupFS fs' (originalOutputPath temp_dir input_file) = some c) := by
  obtain ⟨l, hl, -⟩ := detect_dependencies_total env.importsOf fs fuel input_file hfuel
  have hdeps : ∀ p ∈ l, (lookupFS fs p).isSome = true := by
    intro p hp
    obtain ⟨d, m, -, -, hex⟩ :=
      detect_dependencies_mem env.importsOf fs fuel input_file l hl p hp
    exact hex
  set outp := originalOutputPath temp_dir input_file with houtp
  obtain ⟨fs', hfold, hmono, hpres⟩ :=
    origDeps_fold temp_dir l (insertFS fs outp c)
      (fun dep hdep => lookupFS_insert_isSome fs outp c dep (hdeps dep hdep))
  have happly : apply_obfuscation env tools temp_dir fuel "original" input_file fs =
      (fs', .ret (some outp)) := by
    simp only [apply_obfuscation, hl, reduceIte, copyFS, hin, houtp, hfold,
      Bool.false_eq_true, if_false]
  refine ⟨fs', happly, ?_, ?_⟩
  · have := hmono outp (by rw [lookupFS_insert_self]; rfl)
    exact this
  · intro hcol
    rw [hpres outp (fun dep hdep => hcol l hl dep hdep), lookupFS_insert_self]

/-- The identity branch of `apply_obfuscation` runs before the registry is
consulted (`benchmark.py:509` precedes the `TOOLS[tool_name]` read at line
523), so its outcome does not depend on the registry at all. -/
theorem apply_original_tools_independent (env : DriverEnv)
    (tools tools' : List (String × ToolInfo)) (temp_dir : String) (fuel : Nat)
    (input_file : String) (fs : FileSys) :
    apply_obfuscation env tools temp_dir fuel "original" input_file fs =
      apply_obfuscation env tools' temp_dir fuel "original" input_file fs := by
  simp only [apply_obfuscation]
  cases detect_dependencies env.importsOf fs fuel input_file <;>
    simp [reduceIte]

/-! ## The claims -/

/-- C1: for every metric, summarizing an empty sample sequence yields exactly
the summary `{mean: 0, median: 0, min: 0, max: 0, stdev: 0}` (not an error),
and summarizing a single-sample sequence yields `stdev = 0` and
`mean = median = min = max = sample[0]`. -/
theorem C1_empty_and_singleton_summary :
    pySummary [] = ⟨0, 0, 0, 0, 0⟩ ∧
    ∀ x : ℚ, pySummary [x] = ⟨x, x, x, x, 0⟩ := by
  constructor
  · rfl
  · intro x
    simp [pySummary, pyMean, pyMedian, pyMin, pyMax,
      List.insertionSort, List.orderedInsert, List.getD]

/-- C2: for every sample sequence of length at least 2, the computed summary
satisfies `min ≤ median ≤ max` and `min ≤ mean ≤ max`. -/
theorem C2_summary_order_bounds (xs : List ℚ) (h : 2 ≤ xs.length) :
    (pySummary xs).min ≤ (pySummary xs).median ∧
    (pySummary xs).median ≤ (pySummary xs).max ∧
    (pySummary xs).min ≤ (pySummary xs).mean ∧
    (pySummary xs).mean ≤ (pySummary xs).max := by
  have hne : xs ≠ [] := by
    intro hc
    rw [hc] at h
    simp at h
  have hEmpty : xs.isEmpty = false := by
    simpa [List.isEmpty_iff] using hne
  obtain ⟨h1, h2⟩ := pyMedian_bounds hne
  simp only [pySummary, hEmpty, Bool.false_eq_true, if_false]
  exact ⟨h1, h2, pyMin_le_pyMean hne, pyMean_le_pyMax hne⟩

/-- Witness for C2 at the concrete sample list `[1, 2]`. -/
theorem C2_summary_order_bounds_witness :
    2 ≤ ([1, 2] : List ℚ).length ∧
    ((pySummary [1, 2]).min ≤ (pySummary [1, 2]).median ∧
     (pySummary [1, 2]).median ≤ (pySummary [1, 2]).max ∧
     (pySummary [1, 2]).min ≤ (pySummary [1, 2]).mean ∧
     (pySummary [1, 2]).mean ≤ (pySummary [1, 2]).max) :=
  ⟨by decide, C2_summary_order_bounds [1, 2] (by decide)⟩

/-- C3: for every input artifact — in particular one whose import graph is
cyclic — dependency resolution terminates normally and returns a finite,
duplicate-free list of dependency paths.  The positive fuel is the
interpreter's recursion-depth budget: termination on cycles is exactly the
interpreter's `RecursionError` being swallowed by the resolver's blanket
`except`, after which every pending call returns normally with a
deduplicated list. -/
theorem C3_detect_dependencies_terminates (importsOf : String → List String)
    (fs : FileSys) (fuel : Nat) (file : String) (h : 0 < fuel) :
    ∃ l, detect_dependencies importsOf fs fuel file = .ok l ∧ l.Nodup :=
  detect_dependencies_total importsOf fs fuel file h

/-- Witness for C3 on the two-file cyclic import graph `cycFS` with the
interpreter depth budget 9. -/
theorem C3_detect_dependencies_terminates_witness :
    0 < 9 ∧
    ∃ l, detect_dependencies cycImportsOf cycFS 9 "d/a.py" = .ok l ∧ l.Nodup :=
  ⟨by decide, C3_detect_dependencies_terminates cycImportsOf cycFS 9 "d/a.py" (by decide)⟩

/-- Counterexample to C4: the artifact `d/a.py` whose text contains
`import a` (a self reference the lexical scanner happily extracts) resolves
to a dependency set containing the artifact's own path, contradicting
"the returned set never contains the artifact's own path". -/
theorem C4_counterexample_own_path :
    detect_dependencies selfImportsOf selfFS 2 "d/a.py" = .ok ["d/a.py"] ∧
    "d/a.py" ∈ ((detect_dependencies selfImportsOf selfFS 2 "d/a.py").toOption.getD []) :=
  ⟨rfl, by decide⟩

/-- C4 (amended): dependency resolution is read-only and deterministic —
two resolutions of the same artifact over file systems with identical
observable contents (in particular two successive calls over the same one)
yield the same set — and every returned path is connected by a real
dependency edge: it is the existing sibling resolution of a module name `m`
joined to `dirName f` for a scanned file `f`, where the import scan extracts
`m` from the text of `f`, and `f` is the artifact itself or another member of
the returned set — with `m` outside the hard-coded standard/third-party
filter list.  However the artifact's *own* path can occur in the set when
the artifact is reachable from its own import graph (a self-import or an
inter-file import cycle), as the counterexample shows. -/
theorem C4_detect_dependencies_idempotent_filtered
    (importsOf : String → List String) (fs fs' : FileSys) (fuel : Nat)
    (file : String) (hagree : ∀ p, lookupFS fs p = lookupFS fs' p) :
    detect_dependencies importsOf fs fuel file =
      detect_dependencies importsOf fs' fuel file ∧
    ∀ l, detect_dependencies importsOf fs fuel file = .ok l →
      ∀ p ∈ l, ∃ g, (g = file ∨ g ∈ l) ∧ depEdge importsOf fs g p :=
  ⟨detect_dependencies_ext importsOf fs fs' hagree fuel file,
   fun l hl p hp => detect_dependencies_mem_edge importsOf fs fuel file l hl p hp⟩

/-- Witness for C4 (amended) on the self-import scenario, with the second
resolution running over a differently represented file system with the same
observable contents. -/
theorem C4_detect_dependencies_idempotent_filtered_witness :
    detect_dependencies selfImportsOf selfFS 2 "d/a.py" =
      detect_dependencies selfImportsOf selfFSDup 2 "d/a.py" ∧
    ∀ l, detect_dependencies selfImportsOf selfFS 2 "d/a.py" = .ok l →
      ∀ p ∈ l, ∃ g, (g = "d/a.py" ∨ g ∈ l) ∧ depEdge selfImportsOf selfFS g p :=
  C4_detect_dependencies_idempotent_filtered selfImportsOf selfFS selfFSDup 2
    "d/a.py"
    (fun p => by
      simp only [selfFS, selfFSDup, lookupFS]
      cases hpb : p == "d/a.py" <;> simp [List.lookup, hpb])

/-- Counterexample to C6: an iteration that raises in
`process.communicate()` — after `Popen` succeeded — still leaves the startup
and memory samples it appended before the raise, contradicting "that
iteration's in-progress samples are discarded so the iteration contributes no
samples to any metric's sample list". -/
theorem C6_counterexample_samples_kept :
    evCommRaise.commFails = true ∧
    (runIteration "/tmp/obf" evCommRaise initMeasure).samples.startup_time = [1] ∧
    (runIteration "/tmp/obf" evCommRaise initMeasure).samples.memory_usage = [2] :=
  ⟨rfl, by decide, by decide⟩

/-- C6 (amended): an exception inside a sampling iteration aborts the
iteration at its failure point — samples already appended (startup latency,
and the memory maximum when the monitor ran) are kept, while the metrics not
yet reached (execution time, code size) get no sample from that iteration —
and the loop proceeds to the next iteration. -/
theorem C6_iteration_failure_partial_samples (temp_dir : String) (ev : IterEvent)
    (st : MeasureState) (hspawn : ev.spawnFails = false)
    (hcomm : ev.commFails = true) :
    (runIteration temp_dir ev st).samples.startup_time =
      st.samples.startup_time ++ [ev.startup] ∧
    (runIteration temp_dir ev st).samples.memory_usage =
      st.samples.memory_usage ++ (if ev.memOk then [ev.memVal] else []) ∧
    (runIteration temp_dir ev st).samples.execution_time =
      st.samples.execution_time ∧
    (runIteration temp_dir ev st).samples.code_size = st.samples.code_size ∧
    ∀ (evs : List IterEvent) (s : MeasureState),
      (ev :: evs).foldl (fun s e => runIteration temp_dir e s) s =
        evs.foldl (fun s e => runIteration temp_dir e s) (runIteration temp_dir ev s) := by
  refine ⟨?_, ?_, ?_, ?_, fun evs s => List.foldl_cons ..⟩ <;>
    by_cases hmem : ev.memOk = true <;>
      simp [runIteration, hspawn, hcomm, hmem]

/-- Witness for C6 (amended) at the concrete failing iteration
`evCommRaise`. -/
theorem C6_iteration_failure_partial_samples_witness :
    (runIteration "/w" evCommRaise initMeasure).samples.startup_time =
      initMeasure.samples.startup_time ++ [evCommRaise.startup] ∧
    (runIteration "/w" evCommRaise initMeasure).samples.memory_usage =
      initMeasure.samples.memory_usage ++
        (if evCommRaise.memOk then [evCommRaise.memVal] else []) ∧
    (runIteration "/w" evCommRaise initMeasure).samples.execution_time =
      initMeasure.samples.execution_time ∧
    (runIteration "/w" evCommRaise initMeasure).samples.code_size =
      initMeasure.samples.code_size ∧
    ∀ (evs : List IterEvent) (s : MeasureState),
      (evCommRaise :: evs).foldl (fun s e => runIteration "/w" e s) s =
        evs.foldl (fun s e => runIteration "/w" e s) (runIteration "/w" evCommRaise s) :=
  C6_iteration_failure_partial_samples "/w" evCommRaise initMeasure rfl rfl

/-- Counterexample to C7: when `Popen` raises, the per-iteration handler
catches the exception after `os.chdir(self.temp_dir)` but before the
restoring `os.chdir(current_dir)` (line 791, inside the `try`, with no
`finally`), so the orchestrator is left inside the temporary workspace —
contradicting "restored to the original directory afterward regardless of
outcome". -/
theorem C7_counterexample_cwd_not_restored :
    evSpawnRaise.spawnFails = true ∧
    (runIteration "/tmp/obf" evSpawnRaise initMeasure).cwd = "/tmp/obf" ∧
    initMeasure.cwd ≠ "/tmp/obf" :=
  ⟨rfl, by decide, by decide⟩

/-- C7 (amended): each iteration switches the working directory to the
temporary workspace; it is restored to the caller's directory only when the
iteration reaches the restore statement (no exception at spawn or
communicate), while an exception at either of those points leaves the
working directory at the temporary workspace. -/
theorem C7_cwd_restored_only_without_exception (temp_dir : String)
    (ev : IterEvent) (st : MeasureState) :
    ((ev.spawnFails = false ∧ ev.commFails = false) →
      (runIteration temp_dir ev st).cwd = st.cwd) ∧
    ((ev.spawnFails = true ∨ (ev.spawnFails = false ∧ ev.commFails = true)) →
      (runIteration temp_dir ev st).cwd = temp_dir) := by
  constructor
  · rintro ⟨h1, h2⟩
    by_cases hmem : ev.memOk = true <;>
      by_cases hsz : ev.sizeFails = true <;>
        simp [runIteration, h1, h2, hmem, hsz]
  · rintro (h1 | ⟨h1, h2⟩) <;>
      by_cases hmem : ev.memOk = true <;>
        simp [runIteration, h1, *]

/-- Counterexample to C5: for the artifact `d/foo.py` which imports a
sibling module `foo_original`, the identity tool still "succeeds", but the
dependency copy of `d/foo_original.py` lands on the very output path
`/t/foo_original.py` produced for the artifact (both are
`temp_dir/foo_original.py`), overwriting it — so the produced output file
holds the dependency's bytes, not a byte-identical copy of the input. -/
theorem C5_counterexample_dependency_overwrites_output :
    (apply_obfuscation (inertEnvWith colImportsOf) [] "/t" 5 "original"
      "d/foo.py" colFS).2 = .ret (some "/t/foo_original.py") ∧
    lookupFS (apply_obfuscation (inertEnvWith colImportsOf) [] "/t" 5 "original"
      "d/foo.py" colFS).1 "/t/foo_original.py" = some "YYY" ∧
    lookupFS colFS "d/foo.py" = some "import foo_original" ∧
    ("YYY" : String) ≠ "import foo_original" :=
  ⟨rfl, rfl, rfl, by decide⟩

/-- C5 (amended): for every input artifact that exists, the identity tool
always succeeds (returns an output path, never null) and the output path
exists afterwards; the output is a byte-identical copy of the input's
content provided no discovered dependency's workspace copy target coincides
with the artifact's own output path (the counterexample shows the copy loop
overwrites the output otherwise). -/
theorem C5_original_copies_input (env : DriverEnv)
    (tools : List (String × ToolInfo)) (temp_dir : String) (fuel : Nat)
    (input_file c : String) (fs : FileSys) (hfuel : 0 < fuel)
    (hin : lookupFS fs input_file = some c) :
    ∃ fs', apply_obfuscation env tools temp_dir fuel "original" input_file fs =
        (fs', .ret (some (originalOutputPath temp_dir input_file))) ∧
      existsFS fs' (originalOutputPath temp_dir input_file) = true ∧
      ((∀ l, detect_dependencies env.importsOf fs fuel input_file = .ok l →
          ∀ p ∈ l, joinPath temp_dir (baseName p) ≠
            originalOutputPath temp_dir input_file) →
        lookupFS fs' (originalOutputPath temp_dir input_file) = some c) :=
  apply_original_spec env tools temp_dir fuel input_file c fs hfuel hin

/-- Witness for C5 (amended) on a dependency-free artifact. -/
theorem C5_original_copies_input_witness :
    0 < 5 ∧ lookupFS soloFS "d/foo.py" = some "SRC" ∧
    ∃ fs', apply_obfuscation (inertEnvWith (fun _ => [])) [] "/t" 5 "original"
        "d/foo.py" soloFS =
        (fs', .ret (some (originalOutputPath "/t" "d/foo.py"))) ∧
      existsFS fs' (originalOutputPath "/t" "d/foo.py") = true ∧
      ((∀ l, detect_dependencies (inertEnvWith (fun _ => [])).importsOf soloFS 5
            "d/foo.py" = .ok l →
          ∀ p ∈ l, joinPath "/t" (baseName p) ≠ originalOutputPath "/t" "d/foo.py") →
        lookupFS fs' (originalOutputPath "/t" "d/foo.py") = some "SRC") :=
  ⟨by decide, rfl,
   C5_original_copies_input (inertEnvWith (fun _ => [])) [] "/t" 5 "d/foo.py"
     "SRC" soloFS (by decide) rfl⟩

/-- C9: calling `apply_obfuscation` directly with tool name `original`
ignores the registry entirely — the identity branch precedes the
`enabled`-flag check — so even when the `original` entry is disabled the
call succeeds and produces the copy at the `*_original*` output path. -/
theorem C9_original_branch_ignores_disabled_flag (env : DriverEnv)
    (tools tools' : List (String × ToolInfo)) (temp_dir : String) (fuel : Nat)
    (input_file c : String) (fs : FileSys) (ti : ToolInfo)
    (_hdis : List.lookup "original" tools = some ti)
    (_hoff : ti.enabled = false) (hfuel : 0 < fuel)
    (hin : lookupFS fs input_file = some c) :
    apply_obfuscation env tools temp_dir fuel "original" input_file fs =
      apply_obfuscation env tools' temp_dir fuel "original" input_file fs ∧
    ∃ fs', apply_obfuscation env tools temp_dir fuel "original" input_file fs =
        (fs', .ret (some (originalOutputPath temp_dir input_file))) ∧
      existsFS fs' (originalOutputPath temp_dir input_file) = true := by
  obtain ⟨fs', happly, hex, -⟩ :=
    apply_original_spec env tools temp_dir fuel input_file c fs hfuel hin
  exact ⟨apply_original_tools_independent env tools tools' temp_dir fuel
    input_file fs, fs', happly, hex⟩

/-- Witness for C9: the `original` entry is disabled, yet the call returns
the copy's path. -/
theorem C9_original_branch_ignores_disabled_flag_witness :
    List.lookup "original" disabledTools = some
      { enabled := false, command := none, output := none,
        post_process := false, custom_handler := false,
        needs_execution := false } ∧
    (apply_obfuscation (inertEnvWith (fun _ => [])) disabledTools "/t" 5 "original"
        "d/foo.py" soloFS =
      apply_obfuscation (inertEnvWith (fun _ => [])) [] "/t" 5 "original"
        "d/foo.py" soloFS ∧
    ∃ fs', apply_obfuscation (inertEnvWith (fun _ => [])) disabledTools "/t" 5
        "original" "d/foo.py" soloFS =
        (fs', .ret (some (originalOutputPath "/t" "d/foo.py"))) ∧
      existsFS fs' (originalOutputPath "/t" "d/foo.py") = true) :=
  ⟨rfl,
   C9_original_branch_ignores_disabled_flag (inertEnvWith (fun _ => []))
     disabledTools [] "/t" 5 "d/foo.py" "SRC" soloFS _ rfl rfl (by decide) rfl⟩

/-- Witness for C7 (amended): both branches exercised at concrete
iterations. -/
theorem C7_cwd_restored_only_without_exception_witness :
    (runIteration "/tmp/obf" evSpawnRaise initMeasure).cwd = "/tmp/obf" ∧
    (runIteration "/tmp/obf"
      { spawnFails := false, startup := 1, memOk := true, memVal := 2,
        commFails := false, execVal := 3, sizeFails := false, sizeVal := 4 }
      initMeasure).cwd = initMeasure.cwd :=
  ⟨(C7_cwd_restored_only_without_exception "/tmp/obf" evSpawnRaise initMeasure).2
      (Or.inl rfl),
   (C7_cwd_restored_only_without_exception "/tmp/obf" _ initMeasure).1 ⟨rfl, rfl⟩⟩

theorem string_append_temp_ne (s : String) : s ++ ".temp" ≠ s := by
  intro h
  have hdata : s.data ++ (".temp" : String).data = s.data := congrArg String.data h
  have hlen := congrArg List.length hdata
  rw [List.length_append] at hlen
  simp at hlen

/-- Counterexample to C8: the subprocess succeeds and deposits the raw
output at the temporary path; the repair pass then fails (the output file
cannot be read back), yet `apply_obfuscation` still returns the output path
— the trial is *not* marked failed, contradicting "the driver returns a null
artifact for that trial". -/
theorem C8_counterexample_repair_failure_not_failing :
    (fix_pyobfuscate_output cex8Env.repair cex8Env.readFails
      (moveFS (insertFS cex8FS "/t/a.obf.py.temp" "RAW") "/t/a.obf.py.temp"
        "/t/a.obf.py") "/t/a.obf.py").1 = false ∧
    (apply_obfuscation cex8Env cex8Tools "/t" 3 "pyobfuscate" "d/a.py" cex8FS).2 =
      .ret (some "/t/a.obf.py") ∧
    lookupFS (apply_obfuscation cex8Env cex8Tools "/t" 3 "pyobfuscate" "d/a.py"
      cex8FS).1 "/t/a.obf.py" = some "RAW" :=
  ⟨rfl, rfl, rfl⟩

/-- C8 (amended): when the post-processing repair pass fails on a
dependency-free trial, the failure is *ignored* — `benchmark.py:585` discards
`_fix_pyobfuscate_output`'s boolean — so the raw unrepaired output, already
moved to the final path, is left on disk and is returned as the trial's
artifact; the run continues with that artifact, not with a failed trial. -/
theorem C8_repair_failure_leaves_raw_output (env : DriverEnv)
    (tools : List (String × ToolInfo)) (temp_dir : String) (fuel : Nat)
    (input_file : String) (fs fs1 : FileSys) (ti : ToolInfo)
    (cmdT : String → String → String → String → String → String → String)
    (outT : String → String → String → String) (raw : String)
    (output_file output_temp command : String)
    (hdet : detect_dependencies env.importsOf fs fuel input_file = .ok [])
    (hti : List.lookup "pyobfuscate" tools = some ti)
    (hen : ti.enabled = true) (hpp : ti.post_process = true)
    (hcmd : ti.command = some cmdT) (hout : ti.output = some outT)
    (hof : output_file = outT temp_dir (pathStem input_file) (dirName input_file))
    (hot : output_temp = output_file ++ ".temp")
    (hcm : command = cmdT input_file output_file output_temp
      (pathStem input_file) (dirName input_file) temp_dir)
    (hrun : env.runCmd fs command = (true, fs1))
    (htemp : lookupFS fs1 output_temp = some raw)
    (hread : env.readFails output_file = true) :
    (fix_pyobfuscate_output env.repair env.readFails
      (moveFS fs1 output_temp output_file) output_file).1 = false ∧
    apply_obfuscation env tools temp_dir fuel "pyobfuscate" input_file fs =
      (moveFS fs1 output_temp output_file, .ret (some output_file)) ∧
    lookupFS (moveFS fs1 output_temp output_file) output_file = some raw := by
  have hne : output_temp ≠ output_file := by
    rw [hot]; exact string_append_temp_ne output_file
  have hmove : moveFS fs1 output_temp output_file =
      insertFS (eraseFS fs1 output_temp) output_file raw := by
    simp [moveFS, htemp]
  have hlk : lookupFS (moveFS fs1 output_temp output_file) output_file = some raw := by
    rw [hmove, lookupFS_insert_self]
  have hfix : fix_pyobfuscate_output env.repair env.readFails
      (moveFS fs1 output_temp output_file) output_file =
      (false, moveFS fs1 output_temp output_file) := by
    simp [fix_pyobfuscate_output, hlk, hread]
  refine ⟨by rw [hfix], ?_, hlk⟩
  have hexT : existsFS fs1 output_temp = true := by
    simp [existsFS, htemp]
  have hexO : existsFS (moveFS fs1 output_temp output_file) output_file = true := by
    simp [existsFS, hlk]
  subst hof hot hcm
  simp only [apply_obfuscation, hdet, reduceIte, hti, hen, Bool.not_true,
    Bool.false_eq_true, if_false, hcmd, hout, hrun, Bool.true_and,
    hpp, hexT, if_true, ne_eq, hne, not_false_eq_true, hfix, hexO,
    Bool.not_false, List.foldl_nil, and_self, ite_not]
  simp [hne, hfix, hexO]

/-- Witness for C8 (amended) at the concrete post-processing-failure
scenario. -/
theorem C8_repair_failure_leaves_raw_output_witness :
    (fix_pyobfuscate_output cex8Env.repair cex8Env.readFails
      (moveFS (insertFS cex8FS "/t/a.obf.py.temp" "RAW") "/t/a.obf.py.temp"
        "/t/a.obf.py") "/t/a.obf.py").1 = false ∧
    apply_obfuscation cex8Env cex8Tools "/t" 3 "pyobfuscate" "d/a.py" cex8FS =
      (moveFS (insertFS cex8FS "/t/a.obf.py.temp" "RAW") "/t/a.obf.py.temp"
        "/t/a.obf.py", .ret (some "/t/a.obf.py")) ∧
    lookupFS (moveFS (insertFS cex8FS "/t/a.obf.py.temp" "RAW")
      "/t/a.obf.py.temp" "/t/a.obf.py") "/t/a.obf.py" = some "RAW" :=
  C8_repair_failure_leaves_raw_output cex8Env cex8Tools "/t" 3 "d/a.py" cex8FS
    (insertFS cex8FS "/t/a.obf.py.temp" "RAW") _ _ _ "RAW"
    "/t/a.obf.py" "/t/a.obf.py.temp" "pyobfuscate -i d/a.py > /t/a.obf.py.temp"
    rfl rfl rfl rfl rfl rfl rfl rfl rfl rfl rfl rfl

theorem assocSet_ne_nil {α : Type} (m : List (String × α)) (k : String) (v : α) :
    assocSet m k v ≠ [] := by
  simp [assocSet]

theorem runTrial_preserves_ne_nil (env : DriverEnv)
    (tools : List (String × ToolInfo)) (temp_dir : String) (fuel : Nat)
    (measEvents : String → String → List IterEvent) (test_file : String)
    (acc : Results × FileSys × String) (tool : String × ToolInfo)
    (h : acc.1 ≠ []) :
    (runTrial env tools temp_dir fuel measEvents test_file acc tool).1 ≠ [] := by
  rcases acc with ⟨results, fs, cwd⟩
  simp only [runTrial]
  split
  · exact h
  · split
    · exact h
    · split
      · exact h
      · exact assocSet_ne_nil results test_file _

theorem toolsFold_preserves_ne_nil (env : DriverEnv)
    (tools : List (String × ToolInfo)) (temp_dir : String) (fuel : Nat)
    (measEvents : String → String → List IterEvent) (test_file : String) :
    ∀ (ts : List (String × ToolInfo)) (acc : Results × FileSys × String),
      acc.1 ≠ [] →
      (ts.foldl (runTrial env tools temp_dir fuel measEvents test_file) acc).1 ≠ [] := by
  intro ts
  induction ts with
  | nil => intro acc h; exact h
  | cons t ts ih =>
    intro acc h
    rw [List.foldl_cons]
    exact ih _ (runTrial_preserves_ne_nil env tools temp_dir fuel measEvents
      test_file acc t h)

/-- Function `run_benchmark` creates a results entry for every test file before any
trial runs (`benchmark.py:829`), so the results mapping is non-empty as soon
as at least one test file is processed. -/
theorem run_benchmark_results_ne_nil (env : DriverEnv)
    (tools : List (String × ToolInfo)) (temp_dir : String) (fuel : Nat)
    (measEvents : String → String → List IterEvent) (files : List String)
    (fs : FileSys) (cwd : String) (h : files ≠ []) :
    (run_benchmark env tools temp_dir fuel measEvents files fs cwd).1 ≠ [] := by
  rw [run_benchmark]
  have hgen : ∀ (l : List String) (acc : Results × FileSys × String), l ≠ [] →
      ((l.foldl (fun acc test_file =>
          let acc := (assocSet acc.1 test_file [], acc.2.1, acc.2.2)
          tools.foldl (runTrial env tools temp_dir fuel measEvents test_file) acc)
        acc).1) ≠ [] := by
    intro l
    induction l with
    | nil => intro acc hc; exact absurd rfl hc
    | cons f rest ih =>
      intro acc _
      rw [List.foldl_cons]
      by_cases hrest : rest = []
      · subst hrest
        rw [List.foldl_nil]
        exact toolsFold_preserves_ne_nil env tools temp_dir fuel measEvents f
          tools _ (assocSet_ne_nil acc.1 f [])
      · exact ih _ hrest
  exact hgen files ([], fs, cwd) h

/-- Counterexample to C10: one test file, every tool disabled — no trial
produces any result, yet `run_benchmark` pre-creates the test file's (empty)
entry, so the results map is non-empty and `save_results` does create the
results document. -/
theorem C10_counterexample_document_written_without_trials :
    (run_benchmark (inertEnvWith (fun _ => [])) disabledTools "/t" 3
      (fun _ _ => []) ["d/a.py"] cex8FS "/h").1 = [("d/a.py", [])] ∧
    save_results (fun _ => "DOC")
      (run_benchmark (inertEnvWith (fun _ => [])) disabledTools "/t" 3
        (fun _ _ => []) ["d/a.py"] cex8FS "/h").1 "results" [] =
      [("results/benchmark_results.json", "DOC")] :=
  ⟨rfl, rfl⟩

/-- C10 (amended): with an empty results map, `save_results` writes no file
at all (it returns with the disk untouched); however the results map is
empty only when no test file was processed — `run_benchmark` creates an
entry per test file before any trial — so after a run over at least one test
file the document is written even when no trial produced a result. -/
theorem C10_save_results_guard (ser : Results → String) (output_dir : String)
    (disk : FileSys) (results : Results) (env : DriverEnv)
    (tools : List (String × ToolInfo)) (temp_dir : String) (fuel : Nat)
    (measEvents : String → String → List IterEvent) (files : List String)
    (fs : FileSys) (cwd : String) (hfiles : files ≠ []) :
    (results.isEmpty = true → save_results ser results output_dir disk = disk) ∧
    (run_benchmark env tools temp_dir fuel measEvents files fs cwd).1 ≠ [] ∧
    lookupFS (save_results ser
        (run_benchmark env tools temp_dir fuel measEvents files fs cwd).1
        output_dir disk)
      (joinPath output_dir "benchmark_results.json") =
      some (ser (run_benchmark env tools temp_dir fuel measEvents files fs cwd).1) := by
  have hne := run_benchmark_results_ne_nil env tools temp_dir fuel measEvents
    files fs cwd hfiles
  refine ⟨fun he => by simp [save_results, he], hne, ?_⟩
  have hempty : (run_benchmark env tools temp_dir fuel measEvents files fs
      cwd).1.isEmpty = false := by
    rw [List.isEmpty_eq_false_iff_exists_mem]
    obtain ⟨x, xs, hx⟩ := List.exists_cons_of_ne_nil hne
    exact ⟨x, by rw [hx]; exact List.mem_cons_self x xs⟩
  rw [save_results, hempty]
  simp only [Bool.false_eq_true, if_false]
  exact lookupFS_insert_self disk _ _

/-- Witness for C10 (amended) on the single-file no-successful-trial run. -/
theorem C10_save_results_guard_witness :
    (([] : Results).isEmpty = true →
      save_results (fun _ => "DOC") [] "results" [] = []) ∧
    (run_benchmark (inertEnvWith (fun _ => [])) disabledTools "/t" 3
      (fun _ _ => []) ["d/a.py"] cex8FS "/h").1 ≠ [] ∧
    lookupFS (save_results (fun _ => "DOC")
        (run_benchmark (inertEnvWith (fun _ => [])) disabledTools "/t" 3
          (fun _ _ => []) ["d/a.py"] cex8FS "/h").1 "results" [])
      (joinPath "results" "benchmark_results.json") =
      some ((fun _ => "DOC")
        (run_benchmark (inertEnvWith (fun _ => [])) disabledTools "/t" 3
          (fun _ _ => []) ["d/a.py"] cex8FS "/h").1) :=
  C10_save_results_guard (fun _ => "DOC") "results" [] []
    (inertEnvWith (fun _ => [])) disabledTools "/t" 3 (fun _ _ => [])
    ["d/a.py"] cex8FS "/h" (by simp)

end ObfBench
